import Mathlib

/-!
Verification of the `useLogDownloader` hook (src/hooks/useLogDownloader/index.ts)
and `initializeSentry` (src/components/ErrorHandling/Sentry.tsx) of the parsley
repository.

The hook is embedded shallowly: one run of the `useEffect` body for a fixed URL
("attempt") is a pure function from the observable behaviour of `fetchLogFile`
(progress notifications, the optional byte-limit `onIncompleteDownload` callback,
and how the returned promise settles) to the ordered list of side effects the
hook performs (Sentry breadcrumbs, `reportError` calls, toasts, analytics
`sendEvent` calls and React state setter calls).  React state is replayed over
that trace by `runEvents`.  `fetchLogFile` itself is not among the provided
sources; its cancellation behaviour is modelled from the spec where needed.
-/

/-- Modelled from the spec: warning text constant from `constants/errors`, which
is not among the provided sources.  Only its identity (it is the byte-limit
toast text, distinct from the line-length one) matters to the hook. -/
def LOG_FILE_DOWNLOAD_TOO_LARGE_WARNING : String :=
  "Parsley was unable to download the full log"

/-- Modelled from the spec: warning text constant from `constants/errors`, which
is not among the provided sources.  Only its identity (it is the line-length
toast text, distinct from the byte-limit one) matters to the hook. -/
def LOG_LINE_TOO_LARGE_WARNING : String :=
  "Parsley was unable to fully display some lines"

/-- Breadcrumb categories used by `leaveBreadcrumb` in the hook
(`SentryBreadcrumb.HTTP` and `SentryBreadcrumb.Error`). -/
inductive BreadcrumbType where
  | http
  | error
deriving DecidableEq, Repr

/-- Payload of a `sendEvent` analytics call.  Fields mirror the object literals
in the hook: `evName` is `name`, `reason` is the truncation reason string,
`downloaded` is the `downloaded` byte count, `fsize` is the `fileSize` field and
`ltype` is the `type` field.  The wall-clock `duration` field is opaque time and
is not modelled. -/
structure AnalyticsEvent where
  evName : String
  reason : Option String
  downloaded : Option Nat
  fsize : Option Nat
  ltype : Option String
deriving DecidableEq, Repr

/-- One observable side effect performed by the hook's effect body. -/
inductive HookEvent where
  | breadcrumb (origin : String) (typ : BreadcrumbType)
  | startFetch (url : String) (signalWired : Bool)
  | reportErr (errName : String) (message : String) (trimmed : Option Nat)
  | reportRaw (message : String)
  | toastWarning (message : String) (title : String)
  | analytics (ev : AnalyticsEvent)
  | setData (logs : List String)
  | setError (message : String)
  | setIsLoading (b : Bool)
  | setFileSize (n : Nat)
deriving DecidableEq, Repr

/-- How the `fetchLogFile` promise settles: `.then` receives
`{ result, trimmedLines }`, `.catch` receives an `Error` (a rejection; per the
spec a cancelled attempt also rejects, with the abort error). -/
inductive FetchOutcome where
  | resolved (logs : List String) (trimmedLines : Nat)
  | rejected (errMsg : String)
deriving DecidableEq, Repr

/-- The observable behaviour of one `fetchLogFile` call: the byte counts handed
to `onProgress` chunk by chunk, the truncation reason handed to
`onIncompleteDownload` when the byte ceiling stops the stream (none otherwise),
and how the promise settles. -/
structure FetchRun where
  chunks : List Nat
  incompleteReason : Option String
  outcome : FetchOutcome
deriving DecidableEq, Repr

/-- The body of `onProgress`: `setFileSize(getFileSize() + progress)`. -/
def onProgress (fs progress : Nat) : Nat := fs + progress

/-- The file size after a list of progress notifications, folding `onProgress`
from the initial `useStateRef(0)`. -/
def fileSizeAfter (chunks : List Nat) : Nat := chunks.foldl onProgress 0

/-- The successive values taken by `fileSize`: each `onProgress` call appends
the new running total. -/
def runningTotals : Nat → List Nat → List Nat
  | _, [] => []
  | acc, c :: cs => (acc + c) :: runningTotals (acc + c) cs

/-- The `setFileSize` events emitted by the successive `onProgress` calls. -/
def progressEvents : Nat → List Nat → List HookEvent
  | _, [] => []
  | acc, c :: cs => HookEvent.setFileSize (acc + c) :: progressEvents (acc + c) cs

/-- The body of the `onIncompleteDownload` callback: `reportError(...)`, a
byte-limit warning toast, and a "Log Download Incomplete" analytics event whose
`downloaded` field reads the current file size. -/
def onIncompleteDownloadHandler (fs : Nat) (reason : String) : List HookEvent :=
  [ HookEvent.reportErr "Log download incomplete" reason none,
    HookEvent.toastWarning LOG_FILE_DOWNLOAD_TOO_LARGE_WARNING "Log not fully downloaded",
    HookEvent.analytics (AnalyticsEvent.mk "Log Download Incomplete" (some reason) (some fs) none none) ]

/-- The events of the optional byte-limit callback within one attempt. -/
def incompleteEvents (fs : Nat) : Option String → List HookEvent
  | some reason => onIncompleteDownloadHandler fs reason
  | none => []

/-- The trailing-empty-line removal done at the top of the `.then` handler:
`if (logs[logs.length - 1] === "") logs.pop()`.  On an empty array the JS index
reads `undefined`, which is not `""`, so nothing is removed. -/
def stripTrailingEmpty (logs : List String) : List String :=
  if logs.getLast? = some "" then logs.dropLast else logs

/-- The `.then` handler: strip a trailing empty line, `setData`, and if
`trimmedLines` is truthy (a nonzero count) emit the line-length analytics
event, error report and toast. -/
def thenHandler (fs : Nat) (logs : List String) (trimmedLines : Nat) : List HookEvent :=
  HookEvent.setData (stripTrailingEmpty logs) ::
  (if trimmedLines ≠ 0 then
    [ HookEvent.analytics (AnalyticsEvent.mk "Log Download Incomplete"
        (some "Log line size limit exceeded") (some fs) none none),
      HookEvent.reportErr "Log download incomplete" "Log line size limit exceeded"
        (some trimmedLines),
      HookEvent.toastWarning LOG_LINE_TOO_LARGE_WARNING "Log not fully downloaded" ]
  else [])

/-- The `.catch` handler: an error breadcrumb, `reportError(err)`,
`setError(err.message)` and a "Log Download Failed" analytics event. -/
def catchHandler (logType : String) (fs : Nat) (errMsg : String) : List HookEvent :=
  [ HookEvent.breadcrumb "useLogDownloader" BreadcrumbType.error,
    HookEvent.reportRaw errMsg,
    HookEvent.setError errMsg,
    HookEvent.analytics (AnalyticsEvent.mk "Log Download Failed" none none (some fs) (some logType)) ]

/-- The `.finally` handler: an HTTP breadcrumb, the final "Log Downloaded"
analytics event and `setIsLoading(false)`. -/
def finallyHandler (logType : String) (fs : Nat) : List HookEvent :=
  [ HookEvent.breadcrumb "useLogDownloader" BreadcrumbType.http,
    HookEvent.analytics (AnalyticsEvent.mk "Log Downloaded" none none (some fs) (some logType)),
    HookEvent.setIsLoading false ]

/-- The events of whichever of `.then` / `.catch` runs when the promise
settles. -/
def settleEvents (logType : String) (fs : Nat) : FetchOutcome → List HookEvent
  | FetchOutcome.resolved logs t => thenHandler fs logs t
  | FetchOutcome.rejected m => catchHandler logType fs m

/-- The events of one attempt once `url` is truthy: `setIsLoading(true)`, the
`fetchLogFile` call (recording whether the abort signal was wired, i.e.
`isProduction()`), the progress notifications, the optional byte-limit
callback, the settling handler and the `.finally` cleanup. -/
def attemptBody (url logType : String) (isProd : Bool) (run : FetchRun) : List HookEvent :=
  HookEvent.setIsLoading true ::
  HookEvent.startFetch url isProd ::
  (progressEvents 0 run.chunks ++
   incompleteEvents (fileSizeAfter run.chunks) run.incompleteReason ++
   settleEvents logType (fileSizeAfter run.chunks) run.outcome ++
   finallyHandler logType (fileSizeAfter run.chunks))

/-- One run of the effect body: the initial breadcrumb always fires; the
attempt runs only when `url` is truthy (a nonempty string). -/
def effectTrace (isProd : Bool) (url logType : String) (run : FetchRun) : List HookEvent :=
  HookEvent.breadcrumb "useLogDownloader" BreadcrumbType.http ::
  (if url = "" then [] else attemptBody url logType isProd run)

/-- The hook's React state: `data`, `error`, `fileSize`, `isLoading`. -/
structure HookState where
  data : Option (List String)
  error : Option String
  fileSize : Nat
  isLoading : Bool
deriving DecidableEq, Repr

/-- The state before the first attempt: `useState()` twice, `useStateRef(0)`,
`useState(false)`. -/
def initialHookState : HookState := HookState.mk none none 0 false

/-- Apply one hook event to the React state; non-setter events leave it
unchanged. -/
def applyEvent (s : HookState) : HookEvent → HookState
  | HookEvent.setData l => HookState.mk (some l) s.error s.fileSize s.isLoading
  | HookEvent.setError m => HookState.mk s.data (some m) s.fileSize s.isLoading
  | HookEvent.setFileSize n => HookState.mk s.data s.error n s.isLoading
  | HookEvent.setIsLoading b => HookState.mk s.data s.error s.fileSize b
  | _ => s

/-- Replay a trace of hook events over the React state. -/
def runEvents (s : HookState) (es : List HookEvent) : HookState := es.foldl applyEvent s

/-- The `AbortController` created at the top of each effect run; only its
aborted flag is observable. -/
structure AbortCtrl where
  aborted : Bool
deriving DecidableEq, Repr

/-- The effect's cleanup function: `abortController.abort()`. -/
def cleanupFn (_ : AbortCtrl) : AbortCtrl := AbortCtrl.mk true

/-- Whether the fetch was handed the abort signal:
`abortController: isProduction() ? abortController : undefined`. -/
def signalWired (isProd : Bool) : Bool := isProd

/-- Modelled from the spec: whether `fetchLogFile` (not among the provided
sources) observes and honours a cancellation — per the spec it checks its
cancellation token at chunk boundaries, so it is cancelled exactly when it was
given the signal and that signal's controller has aborted. -/
def fetchCancelled (wired : Bool) (ac : AbortCtrl) : Bool := wired && ac.aborted

/-- A console-log side effect of `initializeSentry`. -/
inductive ConsoleEvent where
  | errorLog (msg : String) (detail : String)
deriving DecidableEq, Repr

/-- The body of `initializeSentry` in Sentry.tsx: `init(...)` inside
`try`/`catch`; the catch arm logs and swallows, so the function itself settles
normally for every behaviour of `init`.  The `init` call's behaviour is the
argument: `Except.ok ()` when it returns, `Except.error e` when it throws. -/
def sentryInitModel (initBehaviour : Except String Unit) :
    List ConsoleEvent × Except String Unit :=
  match initBehaviour with
  | Except.ok _ => ([], Except.ok ())
  | Except.error e => ([ConsoleEvent.errorLog "Failed to initialize Sentry" e], Except.ok ())

/-- Predicate: the event is `setIsLoading false`. -/
def isLoadingFalseEv : HookEvent → Bool
  | HookEvent.setIsLoading false => true
  | _ => false

/-- Predicate: the event is a `setData` call. -/
def isSetDataEv : HookEvent → Bool
  | HookEvent.setData _ => true
  | _ => false

/-- Predicate: the event is a `sendEvent` call with the given event name. -/
def isAnalyticsNamed (nm : String) : HookEvent → Bool
  | HookEvent.analytics a => a.evName == nm
  | _ => false

/-- Predicate: the event is a toast. -/
def isToastEv : HookEvent → Bool
  | HookEvent.toastWarning _ _ => true
  | _ => false

/-- Predicate: the event is a `sendEvent` call. -/
def isAnalyticsEv : HookEvent → Bool
  | HookEvent.analytics _ => true
  | _ => false

/-- Predicate: the event is a `fetchLogFile` invocation. -/
def isStartFetchEv : HookEvent → Bool
  | HookEvent.startFetch _ _ => true
  | _ => false

theorem progressEvents_eq_map :
    ∀ (acc : Nat) (cs : List Nat),
      progressEvents acc cs = (runningTotals acc cs).map HookEvent.setFileSize := by
  intro acc cs
  induction cs generalizing acc with
  | nil => simp [progressEvents, runningTotals]
  | cons c cs ih => simp [progressEvents, runningTotals, ih]

theorem countP_progressEvents (p : HookEvent → Bool)
    (hp : ∀ n, p (HookEvent.setFileSize n) = false) :
    ∀ (acc : Nat) (cs : List Nat), (progressEvents acc cs).countP p = 0 := by
  intro acc cs
  induction cs generalizing acc with
  | nil => simp [progressEvents]
  | cons c cs ih => simp [progressEvents, List.countP_cons, hp, ih]

theorem runningTotals_length :
    ∀ (acc : Nat) (cs : List Nat), (runningTotals acc cs).length = cs.length := by
  intro acc cs
  induction cs generalizing acc with
  | nil => simp [runningTotals]
  | cons c cs ih => simp [runningTotals, ih]

theorem runningTotals_get :
    ∀ (cs : List Nat) (acc i : Nat) (h : i < (runningTotals acc cs).length),
      (runningTotals acc cs).get ⟨i, h⟩ = acc + (cs.take (i + 1)).sum := by
  intro cs
  induction cs with
  | nil => intro acc i h; simp [runningTotals] at h
  | cons c cs ih =>
    intro acc i h
    cases i with
    | zero => simp [runningTotals]
    | succ j =>
      have hj : j < (runningTotals (acc + c) cs).length := by
        simpa [runningTotals] using h
      have := ih (acc + c) j hj
      simp [runningTotals, List.get] at this ⊢
      omega

theorem runningTotals_chain :
    ∀ (acc : Nat) (cs : List Nat),
      List.Chain' (fun a b => a ≤ b) (acc :: runningTotals acc cs) := by
  intro acc cs
  induction cs generalizing acc with
  | nil => simp [runningTotals]
  | cons c cs ih =>
    simp only [runningTotals, List.chain'_cons]
    exact ⟨Nat.le_add_right acc c, ih (acc + c)⟩

theorem foldl_onProgress (cs : List Nat) :
    ∀ acc : Nat, cs.foldl onProgress acc = acc + cs.sum := by
  induction cs with
  | nil => intro acc; simp
  | cons c cs ih =>
    intro acc
    simp only [List.foldl_cons, List.sum_cons, ih, onProgress]
    omega

theorem countP_incompleteEvents_loadingFalse (fs : Nat) (o : Option String) :
    (incompleteEvents fs o).countP isLoadingFalseEv = 0 := by
  cases o <;>
    simp [incompleteEvents, onIncompleteDownloadHandler, isLoadingFalseEv,
      List.countP_cons, List.countP_nil]

theorem countP_settleEvents_loadingFalse (logType : String) (fs : Nat) (oc : FetchOutcome) :
    (settleEvents logType fs oc).countP isLoadingFalseEv = 0 := by
  cases oc with
  | resolved logs t =>
    by_cases ht : t = 0 <;>
      simp [settleEvents, thenHandler, ht, isLoadingFalseEv, List.countP_cons, List.countP_nil]
  | rejected m =>
    simp [settleEvents, catchHandler, isLoadingFalseEv, List.countP_cons, List.countP_nil]

theorem countP_finallyHandler_loadingFalse (logType : String) (fs : Nat) :
    (finallyHandler logType fs).countP isLoadingFalseEv = 1 := by
  simp [finallyHandler, isLoadingFalseEv, List.countP_cons, List.countP_nil]

theorem countP_incompleteEvents_downloaded (fs : Nat) (o : Option String) :
    (incompleteEvents fs o).countP (isAnalyticsNamed "Log Downloaded") = 0 := by
  cases o <;>
    simp [incompleteEvents, onIncompleteDownloadHandler, isAnalyticsNamed,
      List.countP_cons, List.countP_nil]

theorem countP_settleEvents_downloaded (logType : String) (fs : Nat) (oc : FetchOutcome) :
    (settleEvents logType fs oc).countP (isAnalyticsNamed "Log Downloaded") = 0 := by
  cases oc with
  | resolved logs t =>
    by_cases ht : t = 0 <;>
      simp [settleEvents, thenHandler, ht, isAnalyticsNamed, List.countP_cons, List.countP_nil]
  | rejected m =>
    simp [settleEvents, catchHandler, isAnalyticsNamed, List.countP_cons, List.countP_nil]

theorem countP_finallyHandler_downloaded (logType : String) (fs : Nat) :
    (finallyHandler logType fs).countP (isAnalyticsNamed "Log Downloaded") = 1 := by
  simp [finallyHandler, isAnalyticsNamed, List.countP_cons, List.countP_nil]

theorem countP_incompleteEvents_setData (fs : Nat) (o : Option String) :
    (incompleteEvents fs o).countP isSetDataEv = 0 := by
  cases o <;>
    simp [incompleteEvents, onIncompleteDownloadHandler, isSetDataEv,
      List.countP_cons, List.countP_nil]

theorem countP_catchHandler_setData (logType : String) (fs : Nat) (m : String) :
    (catchHandler logType fs m).countP isSetDataEv = 0 := by
  simp [catchHandler, isSetDataEv, List.countP_cons, List.countP_nil]

theorem countP_finallyHandler_setData (logType : String) (fs : Nat) :
    (finallyHandler logType fs).countP isSetDataEv = 0 := by
  simp [finallyHandler, isSetDataEv, List.countP_cons, List.countP_nil]

/-- Claim C5: for every attempt (success, failure, or cancellation),
`isLoading` is set to true when the attempt starts and transitions back to
false exactly once, in the cleanup (`.finally`) phase of that attempt. -/
theorem isLoading_false_exactly_once (isProd : Bool) (url logType : String)
    (run : FetchRun) (hu : url ≠ "") :
    HookEvent.setIsLoading true ∈ effectTrace isProd url logType run
    ∧ (effectTrace isProd url logType run).countP isLoadingFalseEv = 1
    ∧ ∃ pre, effectTrace isProd url logType run
          = pre ++ finallyHandler logType (fileSizeAfter run.chunks)
        ∧ pre.countP isLoadingFalseEv = 0
        ∧ (finallyHandler logType (fileSizeAfter run.chunks)).countP isLoadingFalseEv = 1 := by
  obtain ⟨chunks, inc, oc⟩ := run
  have hprog := countP_progressEvents isLoadingFalseEv (fun n => rfl) 0 chunks
  have hinc := countP_incompleteEvents_loadingFalse (fileSizeAfter chunks) inc
  have hset := countP_settleEvents_loadingFalse logType (fileSizeAfter chunks) oc
  have hfin := countP_finallyHandler_loadingFalse logType (fileSizeAfter chunks)
  refine ⟨?_, ?_, ?_⟩
  · simp [effectTrace, hu, attemptBody]
  · simp only [effectTrace, if_neg hu, attemptBody, List.countP_cons, List.countP_append,
      hprog, hinc, hset, hfin]
    simp [isLoadingFalseEv]
  · refine ⟨HookEvent.breadcrumb "useLogDownloader" BreadcrumbType.http ::
      HookEvent.setIsLoading true :: HookEvent.startFetch url isProd ::
      (progressEvents 0 chunks ++ incompleteEvents (fileSizeAfter chunks) inc ++
        settleEvents logType (fileSizeAfter chunks) oc), ?_, ?_, hfin⟩
    · simp [effectTrace, hu, attemptBody]
    · simp only [List.countP_cons, List.countP_append, hprog, hinc, hset]
      simp [isLoadingFalseEv]

/-- Witness for the claim C5 theorem at a concrete attempt. -/
theorem isLoading_false_exactly_once_witness :
    (effectTrace true "https://evergreen.mongodb.com/task_log" "EVERGREEN_TASK_LOGS"
      (FetchRun.mk [4] none (FetchOutcome.resolved ["a"] 0))).countP isLoadingFalseEv = 1 :=
  (isLoading_false_exactly_once true "https://evergreen.mongodb.com/task_log"
    "EVERGREEN_TASK_LOGS" (FetchRun.mk [4] none (FetchOutcome.resolved ["a"] 0))
    (by decide)).2.1

/-- Claim C6: for every attempt, regardless of how it settles, a final
"Log Downloaded" analytics event is reported exactly once, in a cleanup
(`.finally`) phase that runs after the attempt settles. -/
theorem log_downloaded_exactly_once (isProd : Bool) (url logType : String)
    (run : FetchRun) (hu : url ≠ "") :
    (effectTrace isProd url logType run).countP (isAnalyticsNamed "Log Downloaded") = 1
    ∧ ∃ pre, effectTrace isProd url logType run
          = pre ++ finallyHandler logType (fileSizeAfter run.chunks)
        ∧ pre.countP (isAnalyticsNamed "Log Downloaded") = 0
        ∧ HookEvent.analytics (AnalyticsEvent.mk "Log Downloaded" none none
            (some (fileSizeAfter run.chunks)) (some logType))
            ∈ finallyHandler logType (fileSizeAfter run.chunks) := by
  obtain ⟨chunks, inc, oc⟩ := run
  have hprog := countP_progressEvents (isAnalyticsNamed "Log Downloaded") (fun n => rfl) 0 chunks
  have hinc := countP_incompleteEvents_downloaded (fileSizeAfter chunks) inc
  have hset := countP_settleEvents_downloaded logType (fileSizeAfter chunks) oc
  have hfin := countP_finallyHandler_downloaded logType (fileSizeAfter chunks)
  refine ⟨?_, ?_⟩
  · simp only [effectTrace, if_neg hu, attemptBody, List.countP_cons, List.countP_append,
      hprog, hinc, hset, hfin]
    simp [isAnalyticsNamed]
  · refine ⟨HookEvent.breadcrumb "useLogDownloader" BreadcrumbType.http ::
      HookEvent.setIsLoading true :: HookEvent.startFetch url isProd ::
      (progressEvents 0 chunks ++ incompleteEvents (fileSizeAfter chunks) inc ++
        settleEvents logType (fileSizeAfter chunks) oc), ?_, ?_, ?_⟩
    · simp [effectTrace, hu, attemptBody]
    · simp only [List.countP_cons, List.countP_append, hprog, hinc, hset]
      simp [isAnalyticsNamed]
    · simp [finallyHandler]

/-- Witness for the claim C6 theorem at a concrete attempt. -/
theorem log_downloaded_exactly_once_witness :
    (effectTrace false "https://evergreen.mongodb.com/resmoke_log" "RESMOKE_LOGS"
      (FetchRun.mk [2, 3] none (FetchOutcome.rejected "Network error"))).countP
      (isAnalyticsNamed "Log Downloaded") = 1 :=
  (log_downloaded_exactly_once false "https://evergreen.mongodb.com/resmoke_log"
    "RESMOKE_LOGS" (FetchRun.mk [2, 3] none (FetchOutcome.rejected "Network error"))
    (by decide)).1

/-- Claim C7: for every attempt ending in a transport failure (a rejected
promise), the hook sets `error` to the failure's message, reports a
"Log Download Failed" analytics event whose name differs from both the
incomplete-download and the completed event names, and never calls `setData`
in that attempt. -/
theorem transport_failure_surfaced (isProd : Bool) (url logType m : String)
    (run : FetchRun) (hu : url ≠ "") (ho : run.outcome = FetchOutcome.rejected m) :
    HookEvent.setError m ∈ effectTrace isProd url logType run
    ∧ HookEvent.analytics (AnalyticsEvent.mk "Log Download Failed" none none
        (some (fileSizeAfter run.chunks)) (some logType)) ∈ effectTrace isProd url logType run
    ∧ (effectTrace isProd url logType run).countP isSetDataEv = 0
    ∧ (AnalyticsEvent.mk "Log Download Failed" none none
        (some (fileSizeAfter run.chunks)) (some logType)).evName ≠ "Log Download Incomplete"
    ∧ (AnalyticsEvent.mk "Log Download Failed" none none
        (some (fileSizeAfter run.chunks)) (some logType)).evName ≠ "Log Downloaded" := by
  obtain ⟨chunks, inc, oc⟩ := run
  simp only at ho
  subst ho
  have hprog := countP_progressEvents isSetDataEv (fun n => rfl) 0 chunks
  have hinc := countP_incompleteEvents_setData (fileSizeAfter chunks) inc
  have hcat := countP_catchHandler_setData logType (fileSizeAfter chunks) m
  have hfin := countP_finallyHandler_setData logType (fileSizeAfter chunks)
  refine ⟨?_, ?_, ?_, by simp, by simp⟩
  · simp [effectTrace, hu, attemptBody, settleEvents, catchHandler]
  · simp [effectTrace, hu, attemptBody, settleEvents, catchHandler]
  · simp only [effectTrace, if_neg hu, attemptBody, settleEvents, List.countP_cons,
      List.countP_append, hprog, hinc, hcat, hfin]
    simp [isSetDataEv]

/-- Witness for the claim C7 theorem at a concrete failed attempt. -/
theorem transport_failure_surfaced_witness :
    HookEvent.setError "Failed to fetch" ∈ effectTrace true
      "https://evergreen.mongodb.com/test_log" "EVERGREEN_TEST_LOGS"
      (FetchRun.mk [7] none (FetchOutcome.rejected "Failed to fetch")) :=
  (transport_failure_surfaced true "https://evergreen.mongodb.com/test_log"
    "EVERGREEN_TEST_LOGS" "Failed to fetch"
    (FetchRun.mk [7] none (FetchOutcome.rejected "Failed to fetch"))
    (by decide) rfl).1

/-- Claim C3 as stated is refuted: a cancelled attempt rejects with the abort
error (per the spec's fetcher contract) and the hook's `.catch` handler then
does set the user-visible `error` state to that cancellation message, at the
concrete cancelled attempt below, even though the cleanup analytics still
fire. -/
theorem cancellation_sets_error_counterexample :
    (runEvents initialHookState (effectTrace true "https://evergreen.mongodb.com/task_log"
        "EVERGREEN_TASK_LOGS"
        (FetchRun.mk [] none (FetchOutcome.rejected "The user aborted a request.")))).error
      = some "The user aborted a request."
    ∧ HookEvent.analytics (AnalyticsEvent.mk "Log Downloaded" none none (some 0)
        (some "EVERGREEN_TASK_LOGS"))
        ∈ effectTrace true "https://evergreen.mongodb.com/task_log" "EVERGREEN_TASK_LOGS"
          (FetchRun.mk [] none (FetchOutcome.rejected "The user aborted a request.")) := by
  constructor
  · rfl
  · simp [effectTrace, attemptBody, settleEvents, catchHandler, finallyHandler,
      incompleteEvents, progressEvents, fileSizeAfter]

/-- Claim C3 (amended): an attempt abandoned by cancellation rejects like any
other failure; the hook never sets `data` from it and the cleanup-phase
"Log Downloaded" analytics event still fires exactly once, but the `.catch`
handler does set the `error` state to the cancellation error's message — the
hook does not distinguish cancellation from a transport failure. -/
theorem cancellation_no_data_cleanup_fires (isProd : Bool) (url logType m : String)
    (run : FetchRun) (hu : url ≠ "") (ho : run.outcome = FetchOutcome.rejected m) :
    (effectTrace isProd url logType run).countP isSetDataEv = 0
    ∧ HookEvent.setError m ∈ effectTrace isProd url logType run
    ∧ (effectTrace isProd url logType run).countP (isAnalyticsNamed "Log Downloaded") = 1 := by
  obtain ⟨chunks, inc, oc⟩ := run
  simp only at ho
  subst ho
  have hprogD := countP_progressEvents isSetDataEv (fun n => rfl) 0 chunks
  have hincD := countP_incompleteEvents_setData (fileSizeAfter chunks) inc
  have hcatD := countP_catchHandler_setData logType (fileSizeAfter chunks) m
  have hfinD := countP_finallyHandler_setData logType (fileSizeAfter chunks)
  have hprogL := countP_progressEvents (isAnalyticsNamed "Log Downloaded") (fun n => rfl) 0 chunks
  have hincL := countP_incompleteEvents_downloaded (fileSizeAfter chunks) inc
  have hsetL := countP_settleEvents_downloaded logType (fileSizeAfter chunks)
    (FetchOutcome.rejected m)
  have hfinL := countP_finallyHandler_downloaded logType (fileSizeAfter chunks)
  refine ⟨?_, ?_, ?_⟩
  · simp only [effectTrace, if_neg hu, attemptBody, settleEvents, List.countP_cons,
      List.countP_append, hprogD, hincD, hcatD, hfinD]
    simp [isSetDataEv]
  · simp [effectTrace, hu, attemptBody, settleEvents, catchHandler]
  · simp only [effectTrace, if_neg hu, attemptBody, List.countP_cons,
      List.countP_append, hprogL, hincL, hsetL, hfinL]
    simp [isAnalyticsNamed]

/-- Witness for the amended claim C3 theorem at a concrete cancelled attempt. -/
theorem cancellation_no_data_cleanup_fires_witness :
    (effectTrace false "https://evergreen.mongodb.com/task_log" "EVERGREEN_TASK_LOGS"
      (FetchRun.mk [9] none (FetchOutcome.rejected "The operation was aborted."))).countP
      isSetDataEv = 0 :=
  (cancellation_no_data_cleanup_fires false "https://evergreen.mongodb.com/task_log"
    "EVERGREEN_TASK_LOGS" "The operation was aborted."
    (FetchRun.mk [9] none (FetchOutcome.rejected "The operation was aborted."))
    (by decide) rfl).1

/-- Claim C2: whenever the resolved result has a nonzero `trimmedLines` count,
the line-length warning toast, the "Log Download Incomplete" analytics event
with reason "Log line size limit exceeded" and the error report carrying the
trimmed-line count are all emitted, independently of whether the byte-limit
`onIncompleteDownload` callback also fired in the same attempt; the byte-limit
and line-length toasts are distinct notifications and both may fire. -/
theorem trimmed_lines_notifications (isProd : Bool) (url logType : String)
    (run : FetchRun) (logs : List String) (t : Nat)
    (hu : url ≠ "") (ho : run.outcome = FetchOutcome.resolved logs t) (ht : t ≠ 0) :
    HookEvent.toastWarning LOG_LINE_TOO_LARGE_WARNING "Log not fully downloaded"
      ∈ effectTrace isProd url logType run
    ∧ HookEvent.analytics (AnalyticsEvent.mk "Log Download Incomplete"
        (some "Log line size limit exceeded") (some (fileSizeAfter run.chunks)) none none)
      ∈ effectTrace isProd url logType run
    ∧ HookEvent.reportErr "Log download incomplete" "Log line size limit exceeded" (some t)
      ∈ effectTrace isProd url logType run
    ∧ (∀ r, run.incompleteReason = some r →
        HookEvent.toastWarning LOG_FILE_DOWNLOAD_TOO_LARGE_WARNING "Log not fully downloaded"
          ∈ effectTrace isProd url logType run)
    ∧ LOG_LINE_TOO_LARGE_WARNING ≠ LOG_FILE_DOWNLOAD_TOO_LARGE_WARNING := by
  obtain ⟨chunks, inc, oc⟩ := run
  simp only at ho
  subst ho
  refine ⟨?_, ?_, ?_, ?_, by decide⟩
  · simp [effectTrace, hu, attemptBody, settleEvents, thenHandler, ht]
  · simp [effectTrace, hu, attemptBody, settleEvents, thenHandler, ht]
  · simp [effectTrace, hu, attemptBody, settleEvents, thenHandler, ht]
  · intro r hr
    simp only at hr
    subst hr
    simp [effectTrace, hu, attemptBody, incompleteEvents, onIncompleteDownloadHandler]

/-- Witness for the claim C2 theorem: a concrete attempt in which the byte
limit stopped the stream and lines were also trimmed, so both the line-length
toast and the byte-limit toast appear in the same attempt's trace. -/
theorem trimmed_lines_notifications_witness :
    HookEvent.toastWarning LOG_LINE_TOO_LARGE_WARNING "Log not fully downloaded"
      ∈ effectTrace true "https://evergreen.mongodb.com/big_log" "EVERGREEN_TASK_LOGS"
        (FetchRun.mk [1000] (some "File size limit exceeded")
          (FetchOutcome.resolved ["aaa", "bbb"] 2))
    ∧ HookEvent.toastWarning LOG_FILE_DOWNLOAD_TOO_LARGE_WARNING "Log not fully downloaded"
      ∈ effectTrace true "https://evergreen.mongodb.com/big_log" "EVERGREEN_TASK_LOGS"
        (FetchRun.mk [1000] (some "File size limit exceeded")
          (FetchOutcome.resolved ["aaa", "bbb"] 2)) :=
  ⟨(trimmed_lines_notifications true "https://evergreen.mongodb.com/big_log"
      "EVERGREEN_TASK_LOGS"
      (FetchRun.mk [1000] (some "File size limit exceeded")
        (FetchOutcome.resolved ["aaa", "bbb"] 2)) ["aaa", "bbb"] 2
      (by decide) rfl (by decide)).1,
   (trimmed_lines_notifications true "https://evergreen.mongodb.com/big_log"
      "EVERGREEN_TASK_LOGS"
      (FetchRun.mk [1000] (some "File size limit exceeded")
        (FetchOutcome.resolved ["aaa", "bbb"] 2)) ["aaa", "bbb"] 2
      (by decide) rfl (by decide)).2.2.2.1 "File size limit exceeded" rfl⟩

/-- Claim C4: the `.then` handler removes exactly one trailing element if and
only if the last element of the resolved line array is the empty string; all
other elements are exposed unchanged and in order, and the exposed array is
what `setData` receives. -/
theorem strip_trailing_empty_iff (logs : List String) :
    (logs.getLast? = some "" →
      stripTrailingEmpty logs ++ [""] = logs
      ∧ stripTrailingEmpty logs = logs.dropLast)
    ∧ (logs.getLast? ≠ some "" → stripTrailingEmpty logs = logs)
    ∧ (∀ fs t, HookEvent.setData (stripTrailingEmpty logs) ∈ thenHandler fs logs t) := by
  refine ⟨?_, ?_, ?_⟩
  · intro h
    have hne : logs ≠ [] := by
      intro hnil
      rw [hnil] at h
      simp at h
    have hlast : logs.getLast hne = "" := by
      have h3 := List.getLast?_eq_getLast logs hne
      exact Option.some_inj.mp (h3.symm.trans h)
    constructor
    · unfold stripTrailingEmpty
      rw [if_pos h]
      conv_rhs => rw [← List.dropLast_append_getLast hne]
      rw [hlast]
    · unfold stripTrailingEmpty
      rw [if_pos h]
  · intro h
    unfold stripTrailingEmpty
    rw [if_neg h]
  · intro fs t
    simp [thenHandler]

/-- Witness for the claim C4 theorem: a concrete array with a trailing empty
string (and one without). -/
theorem strip_trailing_empty_iff_witness :
    (stripTrailingEmpty ["line one", ""] ++ [""] = ["line one", ""])
    ∧ stripTrailingEmpty ["line one"] = ["line one"] :=
  ⟨((strip_trailing_empty_iff ["line one", ""]).1 (by decide)).1,
   (strip_trailing_empty_iff ["line one"]).2.1 (by decide)⟩

/-- Claim C8: the exposed `fileSize` is the fold of `onProgress` over the
per-chunk byte counts; after each notification it equals the sum of the counts
received so far, and the successive values are monotonically non-decreasing. -/
theorem fileSize_is_running_sum (chunks : List Nat) :
    fileSizeAfter chunks = chunks.sum
    ∧ progressEvents 0 chunks = (runningTotals 0 chunks).map HookEvent.setFileSize
    ∧ (∀ (i : Nat) (h : i < (runningTotals 0 chunks).length),
        (runningTotals 0 chunks).get ⟨i, h⟩ = (chunks.take (i + 1)).sum)
    ∧ List.Chain' (fun a b => a ≤ b) (0 :: runningTotals 0 chunks) := by
  refine ⟨?_, progressEvents_eq_map 0 chunks, ?_, runningTotals_chain 0 chunks⟩
  · simpa [fileSizeAfter] using foldl_onProgress chunks 0
  · intro i h
    simpa using runningTotals_get chunks 0 i h

/-- Witness for the claim C8 theorem at a concrete chunk sequence. -/
theorem fileSize_is_running_sum_witness :
    (runningTotals 0 [5, 0, 3]).get ⟨1, by decide⟩ = ([5, 0, 3].take 2).sum :=
  (fileSize_is_running_sum [5, 0, 3]).2.2.1 1 (by decide)

/-- Claim C9: with an empty URL the effect body performs only the initial
breadcrumb: no fetch is started, no toast or analytics event is emitted, and
replaying the trace leaves the hook state at its initial values
(`isLoading = false`, `data` and `error` unset, `fileSize = 0`). -/
theorem empty_url_no_attempt (isProd : Bool) (logType : String) (run : FetchRun) :
    effectTrace isProd "" logType run
      = [HookEvent.breadcrumb "useLogDownloader" BreadcrumbType.http]
    ∧ runEvents initialHookState (effectTrace isProd "" logType run) = initialHookState
    ∧ (runEvents initialHookState (effectTrace isProd "" logType run)).isLoading = false
    ∧ (runEvents initialHookState (effectTrace isProd "" logType run)).data = none
    ∧ (runEvents initialHookState (effectTrace isProd "" logType run)).error = none
    ∧ (runEvents initialHookState (effectTrace isProd "" logType run)).fileSize = 0
    ∧ (effectTrace isProd "" logType run).countP isStartFetchEv = 0
    ∧ (effectTrace isProd "" logType run).countP isToastEv = 0
    ∧ (effectTrace isProd "" logType run).countP isAnalyticsEv = 0 := by
  have h : effectTrace isProd "" logType run
      = [HookEvent.breadcrumb "useLogDownloader" BreadcrumbType.http] := by
    simp [effectTrace]
  refine ⟨h, ?_, ?_, ?_, ?_, ?_, ?_, ?_, ?_⟩ <;>
    simp [h, runEvents, applyEvent, initialHookState, isStartFetchEv, isToastEv,
      isAnalyticsEv, List.countP_cons, List.countP_nil]

/-- Claim C10: `initializeSentry` never propagates an exception: for every
behaviour of the underlying `init` call it settles normally, and when `init`
throws it logs "Failed to initialize Sentry" with the thrown value. -/
theorem sentry_init_never_propagates (b : Except String Unit) :
    (sentryInitModel b).2 = Except.ok ()
    ∧ (∀ e, b = Except.error e →
        (sentryInitModel b).1 = [ConsoleEvent.errorLog "Failed to initialize Sentry" e]) := by
  cases b with
  | ok u =>
    refine ⟨rfl, ?_⟩
    intro e he
    cases he
  | error e =>
    refine ⟨rfl, ?_⟩
    intro e2 he
    injection he with h
    subst h
    rfl

/-- Witness for the claim C10 theorem with a throwing `init`. -/
theorem sentry_init_never_propagates_witness :
    (sentryInitModel (Except.error "DSN malformed")).1
      = [ConsoleEvent.errorLog "Failed to initialize Sentry" "DSN malformed"] :=
  (sentry_init_never_propagates (Except.error "DSN malformed")).2 "DSN malformed" rfl

/-- Claim C1 as stated is refuted: outside production the hook passes
`undefined` instead of the abort controller to `fetchLogFile`
(`abortController: isProduction() ? abortController : undefined`), so at the
concrete instance below — a development-mode attempt whose cleanup has run —
the superseded fetch does not observe the abort and is not cancelled. -/
theorem abort_unwired_in_development_counterexample :
    fetchCancelled (signalWired false) (cleanupFn (AbortCtrl.mk false)) = false := by
  decide

/-- Claim C1 (amended): on every URL change or teardown the cleanup function
does call `abort()` on the attempt's controller, but that signal is handed to
the fetch only when `isProduction()` is true; hence the previous in-flight
attempt is cancelled before a new one begins exactly in production builds,
while in development the previous attempt is not aborted and may still be in
flight. -/
theorem cleanup_aborts_wired_iff_production (isProd : Bool) (ac : AbortCtrl) :
    (cleanupFn ac).aborted = true
    ∧ fetchCancelled (signalWired isProd) (cleanupFn ac) = isProd
    ∧ (∀ url logType : String, ∀ run : FetchRun, url ≠ "" →
        HookEvent.startFetch url (signalWired isProd) ∈ effectTrace isProd url logType run) := by
  refine ⟨rfl, ?_, ?_⟩
  · cases isProd <;> simp [cleanupFn, fetchCancelled, signalWired]
  · intro url logType run hu
    simp [effectTrace, hu, attemptBody, signalWired]

/-- Witness for the amended claim C1 theorem at a concrete production
attempt. -/
theorem cleanup_aborts_wired_iff_production_witness :
    HookEvent.startFetch "https://evergreen.mongodb.com/task_log" (signalWired true)
      ∈ effectTrace true "https://evergreen.mongodb.com/task_log" "EVERGREEN_TASK_LOGS"
        (FetchRun.mk [] none (FetchOutcome.resolved [] 0)) :=
  (cleanup_aborts_wired_iff_production true (AbortCtrl.mk false)).2.2
    "https://evergreen.mongodb.com/task_log" "EVERGREEN_TASK_LOGS"
    (FetchRun.mk [] none (FetchOutcome.resolved [] 0)) (by decide)
